import Mathlib

/-!
Verification of the log-formatting and interactive-menu layer of the
`aws-cli-tool` repository, as a shallow embedding in Lean 4.

Conventions of the embedding:
* Python strings are Lean `String`s (lists of unicode scalar chars).  The
  string predicates used by the code (`str.upper`, `str.lower`, `\w`, `\s`,
  word boundaries, `str.strip`) are modelled on the ASCII fragment, which is
  the fragment the source manipulates (level names, JSON keys, timestamps).
* `re.search` over the four concrete patterns in
  `awscli_tool/utils/log_formatter.py` is embedded by direct scanning
  functions that implement exactly the leftmost-match / greedy semantics of
  those patterns.
* Fallible Python code is embedded in `Except PyErr`; an uncaught exception
  is an `Except.error`.
* Machine-level limits (`time_t` range) appear as explicit bounds.
-/

set_option maxRecDepth 4000

namespace AwsCliTool

/-! ## Python string primitives (ASCII model) -/

/-- Python `str.upper` on one ASCII character (identity elsewhere). -/
def pyUpperChar (c : Char) : Char :=
  if 'a' ≤ c ∧ c ≤ 'z' then Char.ofNat (c.toNat - 32) else c

/-- Python `str.lower` on one ASCII character (identity elsewhere). -/
def pyLowerChar (c : Char) : Char :=
  if 'A' ≤ c ∧ c ≤ 'Z' then Char.ofNat (c.toNat + 32) else c

/-- Python `str.upper` (ASCII model). -/
def pyUpper (s : String) : String := String.mk (s.data.map pyUpperChar)

/-- Python `str.lower` (ASCII model). -/
def pyLower (s : String) : String := String.mk (s.data.map pyLowerChar)

/-- Regex `\w` (ASCII model): letters, digits, underscore. -/
def isWordChar (c : Char) : Bool := c.isAlphanum || c = '_'

/-- Regex `\s` / Python whitespace (ASCII model). -/
def isSpaceChar (c : Char) : Bool :=
  c = ' ' || c = '\t' || c = '\n' || c = '\r' || c = '\x0b' || c = '\x0c'

/-- Python substring containment `needle in hay`. -/
def subIn (needle : List Char) : List Char → Bool
  | [] => needle.isEmpty
  | c :: rest => needle.isPrefixOf (c :: rest) || subIn needle rest

/-- Case-insensitive (ASCII) equality of characters, as used by
`re.IGNORECASE`. -/
def ciEqChar (a b : Char) : Bool := pyLowerChar a = pyLowerChar b

/-- Consume the literal `lit` case-insensitively from the front of `cs`,
returning the remainder on success. -/
def stripCI : List Char → List Char → Option (List Char)
  | [], cs => some cs
  | _ :: _, [] => none
  | l :: ls, c :: cs => if ciEqChar l c then stripCI ls cs else none

/-- Longest front run of `\w` characters, with the remainder. -/
def spanWord (cs : List Char) : List Char × List Char :=
  (cs.takeWhile isWordChar, cs.dropWhile isWordChar)

/-! ## The four `LEVEL_PATTERNS` regexes of `log_formatter.py`

`LEVEL_PATTERNS = [r'"level"\s*:\s*"(\w+)"', r'"severity"\s*:\s*"(\w+)"',
r'\[(\w+)\]', r'\b(ERROR|WARN|WARNING|INFO|DEBUG|TRACE)\b']`, each searched
with `re.search(pattern, message, re.IGNORECASE)` and `match.group(1)`
extracted.  Every searcher below returns the group-1 capture (in original
case) of the leftmost match, or `none`. -/

/-- Attempt the key-value pattern `"KEY"\s*:\s*"(\w+)"` at the very start of
`cs` (case-insensitive key), returning the capture. -/
def matchKVAt (key : List Char) (cs : List Char) : Option (List Char) :=
  match cs with
  | '"' :: r0 =>
    match stripCI key r0 with
    | some ('"' :: r1) =>
      match (r1.dropWhile isSpaceChar) with
      | ':' :: r2 =>
        match (r2.dropWhile isSpaceChar) with
        | '"' :: r3 =>
          match spanWord r3 with
          | (w, '"' :: _) => if w.isEmpty then none else some w
          | _ => none
        | _ => none
      | _ => none
    | _ => none
  | _ => none

/-- `re.search` for the key-value pattern: leftmost position wins. -/
def searchKV (key : List Char) : List Char → Option (List Char)
  | [] => none
  | c :: rest =>
    match matchKVAt key (c :: rest) with
    | some w => some w
    | none => searchKV key rest

/-- Attempt `\[(\w+)\]` at the very start of `cs`. -/
def matchBracketAt (cs : List Char) : Option (List Char) :=
  match cs with
  | '[' :: r0 =>
    match spanWord r0 with
    | (w, ']' :: _) => if w.isEmpty then none else some w
    | _ => none
  | _ => none

/-- `re.search` for `\[(\w+)\]`. -/
def searchBracket : List Char → Option (List Char)
  | [] => none
  | c :: rest =>
    match matchBracketAt (c :: rest) with
    | some w => some w
    | none => searchBracket rest

/-- The six alternatives of the bare-word pattern, in the order the regex
alternation tries them. -/
def levelWords : List (List Char) :=
  ["ERROR".data, "WARN".data, "WARNING".data, "INFO".data, "DEBUG".data,
   "TRACE".data]

/-- Try one alternative `w` at the start of `cs`: case-insensitive literal
match followed by a word boundary.  Returns the matched original-case slice. -/
def tryWordLit (w : List Char) (cs : List Char) : Option (List Char) :=
  match stripCI w cs with
  | some rest =>
    match rest with
    | [] => some (cs.take w.length)
    | c :: _ => if isWordChar c then none else some (cs.take w.length)
  | none => none

/-- Try the whole alternation at the start of `cs`, in order. -/
def matchWordAt (cs : List Char) : Option (List Char) :=
  levelWords.firstM (fun w => tryWordLit w cs)

/-- `re.search` for `\b(ERROR|WARN|WARNING|INFO|DEBUG|TRACE)\b`.  The `prev`
argument is the character before the current position, for the leading word
boundary. -/
def searchWord : Option Char → List Char → Option (List Char)
  | _, [] => none
  | prev, c :: rest =>
    match (if prev.all (fun p => !(isWordChar p)) then matchWordAt (c :: rest)
           else none) with
    | some w => some w
    | none => searchWord (some c) rest

/-! ## `extract_log_level` (log_formatter.py lines 36-56) -/

/-- Keys of the `LEVEL_COLORS` dict, in insertion order.  Note that this
set has SIX entries: it contains both `WARN` and `WARNING`. -/
def LEVEL_COLORS_keys : List String :=
  ["ERROR", "WARN", "WARNING", "INFO", "DEBUG", "TRACE"]

/-- Body of the `for pattern in LEVEL_PATTERNS` loop for one pattern: on a
match, uppercase the capture; return it if it is a `LEVEL_COLORS` key, map
`WARNING` to `WARN` otherwise (dead in practice since `WARNING` is a key);
on no return, fall through to the rest of the loop (`next`). -/
def patternStep (found : Option (List Char)) (next : String) : String :=
  match found with
  | none => next
  | some cap =>
    let level := String.mk (cap.map pyUpperChar)
    if level ∈ LEVEL_COLORS_keys then level
    else if level = "WARNING" then "WARN"
    else next

/-- The `# Default based on content` fallback of `extract_log_level`. -/
def contentFallback (message_upper : String) : String :=
  if subIn "ERROR".data message_upper.data
      || subIn "EXCEPTION".data message_upper.data
      || subIn "FAILED".data message_upper.data then "ERROR"
  else if subIn "WARN".data message_upper.data then "WARN"
  else "INFO"

/-- Embedding of `extract_log_level` from `log_formatter.py`. -/
def extract_log_level (message : String) : String :=
  let cs := message.data
  let message_upper := pyUpper message
  patternStep (searchKV "level".data cs)
    (patternStep (searchKV "severity".data cs)
      (patternStep (searchBracket cs)
        (patternStep (searchWord none cs)
          (contentFallback message_upper))))

/-! ## Spec-side level extraction (section 4.1 of the spec, claim C2)

The spec describes the same layered heuristics but with the captured word
"normalized to the enum (`WARNING`→`WARN`) when it names a known level", so
that only the five enum values can be produced. -/

/-- The five enum values of the spec's `FormattedLogEntry.level`. -/
def specLevels : List String := ["ERROR", "WARN", "INFO", "DEBUG", "TRACE"]

/-- Spec-side step: normalize `WARNING`→`WARN`; accept only the five enum
values; otherwise fall through. -/
def specStep (found : Option (List Char)) (next : String) : String :=
  match found with
  | none => next
  | some cap =>
    let word := String.mk (cap.map pyUpperChar)
    let word := if word = "WARNING" then "WARN" else word
    if word ∈ specLevels then word else next

/-- Level extraction exactly as the spec sentences of claim C2 describe it
(layered heuristics, first match wins, `WARNING` normalized to `WARN`). -/
def extractLevelSpec (message : String) : String :=
  let cs := message.data
  specStep (searchKV "level".data cs)
    (specStep (searchKV "severity".data cs)
      (specStep (searchBracket cs)
        (specStep (searchWord none cs)
          (contentFallback (pyUpper message)))))

/-- Amended spec-side step: the captured word is returned AS CAPTURED
(uppercased) when it is one of the six known level names — `WARNING` is a
known name of its own and is not normalized. -/
def amendedStep (found : Option (List Char)) (next : String) : String :=
  match found with
  | none => next
  | some cap =>
    let word := String.mk (cap.map pyUpperChar)
    if word ∈ LEVEL_COLORS_keys then word else next

/-- Level extraction as amended for claim C2: identical layering, but a
captured `WARNING` is returned unnormalized. -/
def extractLevelAmended (message : String) : String :=
  let cs := message.data
  amendedStep (searchKV "level".data cs)
    (amendedStep (searchKV "severity".data cs)
      (amendedStep (searchBracket cs)
        (amendedStep (searchWord none cs)
          (contentFallback (pyUpper message)))))

/-! ## JSON values and `json.loads`

The code calls `json.loads` on the span matched by `re.search(r'\{.*\}',
message, re.DOTALL)`.  `JVal` models Python's parse result (dicts keep
insertion order; a duplicated key keeps its first position with the later
value).  The parser below follows the `json` module's strict grammar,
including its non-standard `NaN`/`Infinity` constants.  Unicode escapes for
surrogate code points (invalid scalar values) are modelled as NUL. -/

inductive JVal where
  | jnull
  | jbool (b : Bool)
  | jint (n : Int)
  | jfloat (q : Rat)
  | jnan
  | jinf (neg : Bool)
  | jstr (s : String)
  | jarr (elems : List JVal)
  | jobj (fields : List (String × JVal))
deriving Repr

/-- Whitespace skipped by the `json` module. -/
def jsonWsChar (c : Char) : Bool := c = ' ' || c = '\t' || c = '\n' || c = '\r'

/-- Skip JSON whitespace. -/
def skipWs (cs : List Char) : List Char := cs.dropWhile jsonWsChar

/-- Value of a hex digit. -/
def hexVal (c : Char) : Option Nat :=
  if '0' ≤ c ∧ c ≤ '9' then some (c.toNat - '0'.toNat)
  else if 'a' ≤ c ∧ c ≤ 'f' then some (c.toNat - 'a'.toNat + 10)
  else if 'A' ≤ c ∧ c ≤ 'F' then some (c.toNat - 'A'.toNat + 10)
  else none

/-- Parse the four hex digits of a `\uXXXX` escape. -/
def parseU4 (cs : List Char) : Option (Nat × List Char) :=
  match cs with
  | a :: b :: c :: d :: rest =>
    match hexVal a, hexVal b, hexVal c, hexVal d with
    | some x, some y, some z, some w => some (((x * 16 + y) * 16 + z) * 16 + w, rest)
    | _, _, _, _ => none
  | _ => none

/-- One escape character after a backslash in a JSON string. -/
def escChar (c : Char) : Option Char :=
  match c with
  | '"' => some '"'
  | '\\' => some '\\'
  | '/' => some '/'
  | 'b' => some '\x08'
  | 'f' => some '\x0c'
  | 'n' => some '\n'
  | 'r' => some '\r'
  | 't' => some '\t'
  | _ => none

/-- Parse the remainder of a JSON string (after the opening quote), strict
mode: raw control characters are rejected.  Returns the content and the rest
after the closing quote. -/
def parseStrBody (fuel : Nat) (cs : List Char) : Option (List Char × List Char) :=
  match fuel with
  | 0 => none
  | fuel + 1 =>
    match cs with
    | [] => none
    | '"' :: rest => some ([], rest)
    | '\\' :: e :: rest =>
      match escChar e with
      | some c =>
        match parseStrBody fuel rest with
        | some (body, rest') => some (c :: body, rest')
        | none => none
      | none =>
        if e = 'u' then
          match parseU4 rest with
          | some (code, rest') =>
            let c := if h : code.isValidChar then Char.ofNatAux code h else '\x00'
            match parseStrBody fuel rest' with
            | some (body, rest'') => some (c :: body, rest'')
            | none => none
          | none => none
        else none
    | c :: rest =>
      if c.toNat < 0x20 then none
      else
        match parseStrBody fuel rest with
        | some (body, rest') => some (c :: body, rest')
        | none => none

/-- Decimal digit test. -/
def isDigitChar (c : Char) : Bool := '0' ≤ c ∧ c ≤ '9'

/-- Numeric value of a digit run. -/
def digitsVal (ds : List Char) : Nat :=
  ds.foldl (fun acc c => acc * 10 + (c.toNat - '0'.toNat)) 0

/-- Parse `(-?(?:0|[1-9]\d*))(\.\d+)?([eE][-+]?\d+)?` — the `json` module's
`NUMBER_RE`.  Integers become `jint`, anything with a fraction or exponent
becomes `jfloat` (floats modelled as exact rationals). -/
def parseNumber (cs : List Char) : Option (JVal × List Char) :=
  let (neg, cs1) := match cs with
    | '-' :: rest => (true, rest)
    | _ => (false, cs)
  let intRun := cs1.takeWhile isDigitChar
  let afterInt := cs1.dropWhile isDigitChar
  if intRun.isEmpty then none
  else if intRun.length > 1 ∧ intRun.headD '0' = '0' then none
  else
    let n : Nat := digitsVal intRun
    let (fracRun, afterFrac) := match afterInt with
      | '.' :: rest =>
        let f := rest.takeWhile isDigitChar
        if f.isEmpty then ([], afterInt) else (f, rest.dropWhile isDigitChar)
      | _ => ([], afterInt)
    let (expOk, expNeg, expRun, afterExp) := match afterFrac with
      | 'e' :: rest | 'E' :: rest =>
        let (eneg, rest') := match rest with
          | '+' :: r => (false, r)
          | '-' :: r => (true, r)
          | _ => (false, rest)
        let e := rest'.takeWhile isDigitChar
        if e.isEmpty then (false, false, [], afterFrac)
        else (true, eneg, e, rest'.dropWhile isDigitChar)
      | _ => (false, false, ([] : List Char), afterFrac)
    if fracRun.isEmpty ∧ ¬expOk then
      some (.jint (if neg then -(n : Int) else (n : Int)), afterInt)
    else
      let mantissa : Rat := (n : Rat) + (digitsVal fracRun : Rat) / ((10 : Rat) ^ fracRun.length)
      let expo : Int := if expNeg then -(digitsVal expRun : Int) else (digitsVal expRun : Int)
      let mag : Rat := mantissa * (10 : Rat) ^ expo
      some (.jfloat (if neg then -mag else mag), afterExp)

/-- Insert a key-value pair into an object's field list with Python `dict`
semantics: a repeated key keeps its original position and takes the new
value. -/
def dictInsert (fields : List (String × JVal)) (k : String) (v : JVal) :
    List (String × JVal) :=
  match fields with
  | [] => [(k, v)]
  | (k', v') :: rest =>
    if k' = k then (k', v) :: rest else (k', v') :: dictInsert rest k v

/-- Case-sensitive literal consumption (JSON keywords are case-sensitive). -/
def stripLit : List Char → List Char → Option (List Char)
  | [], cs => some cs
  | _ :: _, [] => none
  | l :: ls, c :: cs => if l = c then stripLit ls cs else none

/-- Keyword and constant values, tried by the `json` scanner after strings,
objects and arrays: `true`, `false`, `null`, then numbers, then the
non-standard constants `NaN`, `Infinity`, `-Infinity`. -/
def parseSimple (cs : List Char) : Option (JVal × List Char) :=
  match stripLit "true".data cs with
  | some rest => some (.jbool true, rest)
  | none =>
    match stripLit "false".data cs with
    | some rest => some (.jbool false, rest)
    | none =>
      match stripLit "null".data cs with
      | some rest => some (.jnull, rest)
      | none =>
        match parseNumber cs with
        | some r => some r
        | none =>
          match stripLit "NaN".data cs with
          | some rest => some (.jnan, rest)
          | none =>
            match stripLit "Infinity".data cs with
            | some rest => some (.jinf false, rest)
            | none =>
              match stripLit "-Infinity".data cs with
              | some rest => some (.jinf true, rest)
              | none => none

mutual

/-- Parse one JSON value; `parseMembers`/`parseElems` handle the tails of
objects and arrays.  Fuel bounds the recursion depth (any `cs.length + 1`
suffices). -/
def parseVal (fuel : Nat) (cs : List Char) : Option (JVal × List Char) :=
  match fuel with
  | 0 => none
  | fuel + 1 =>
    match skipWs cs with
    | [] => none
    | '"' :: rest =>
      match parseStrBody (rest.length + 1) rest with
      | some (body, rest') => some (.jstr (String.mk body), rest')
      | none => none
    | '{' :: rest =>
      match skipWs rest with
      | '}' :: rest' => some (.jobj [], rest')
      | _ => parseMembers fuel rest []
    | '[' :: rest =>
      match skipWs rest with
      | ']' :: rest' => some (.jarr [], rest')
      | _ => parseElems fuel rest []
    | cs' => parseSimple cs'

/-- Parse the members of an object after its `{` (at least one member). -/
def parseMembers (fuel : Nat) (cs : List Char) (acc : List (String × JVal)) :
    Option (JVal × List Char) :=
  match fuel with
  | 0 => none
  | fuel + 1 =>
    match skipWs cs with
    | '"' :: rest =>
      match parseStrBody (rest.length + 1) rest with
      | some (key, rest') =>
        match skipWs rest' with
        | ':' :: rest'' =>
          match parseVal fuel rest'' with
          | some (v, rest''') =>
            let acc' := dictInsert acc (String.mk key) v
            match skipWs rest''' with
            | ',' :: more => parseMembers fuel more acc'
            | '}' :: more => some (.jobj acc', more)
            | _ => none
          | none => none
        | _ => none
      | none => none
    | _ => none

/-- Parse the elements of an array after its `[` (at least one element). -/
def parseElems (fuel : Nat) (cs : List Char) (acc : List JVal) :
    Option (JVal × List Char) :=
  match fuel with
  | 0 => none
  | fuel + 1 =>
    match parseVal fuel cs with
    | some (v, rest) =>
      match skipWs rest with
      | ',' :: more => parseElems fuel more (acc ++ [v])
      | ']' :: more => some (.jarr (acc ++ [v]), more)
      | _ => none
    | none => none

end

/-- Embedding of `json.loads`: parse one document, allow surrounding
whitespace, require the input to be fully consumed. -/
def jsonLoads (cs : List Char) : Option JVal :=
  match parseVal (cs.length + 1) cs with
  | some (v, rest) => if (skipWs rest).isEmpty then some v else none
  | none => none

/-! ## `parse_json_log` (log_formatter.py lines 59-68) -/

/-- Given the characters after a `{`, take everything up to and including
the LAST `}` (the greedy `.*` of `re.search(r'\{.*\}', message, re.DOTALL)`),
or `none` if no `}` follows. -/
def takeToLastBrace (cs : List Char) : Option (List Char) :=
  if (cs.reverse.dropWhile (fun c => ¬(c = '}'))).isEmpty then none
  else some (cs.reverse.dropWhile (fun c => ¬(c = '}'))).reverse

/-- Leftmost-position search for `\{.*\}` with `re.DOTALL`: at the first `{`
that is followed by some `}`, the greedy match runs to the last `}` of the
string. -/
def searchSpan : List Char → Option (List Char)
  | [] => none
  | c :: rest =>
    if c = '{' then
      match takeToLastBrace rest with
      | some body => some ('{' :: body)
      | none => searchSpan rest
    else searchSpan rest

/-- The span as the spec words it for claim C6: from the FIRST `{` of the
message to the LAST `}`, when the first `{` precedes the last `}`. -/
def specSpan (cs : List Char) : Option (List Char) :=
  match cs.dropWhile (fun c => ¬(c = '{')) with
  | c :: rest =>
    if c = '{' then (takeToLastBrace rest).map (fun body => '{' :: body)
    else none
  | [] => none

/-- Embedding of `parse_json_log`: search for the brace span and try
`json.loads` on it; any `JSONDecodeError` is swallowed and `None` returned. -/
def parse_json_log (message : String) : Option JVal :=
  match searchSpan message.data with
  | some span => jsonLoads span
  | none => none

/-! ## Timestamps (`format_timestamp`, log_formatter.py lines 71-83)

`datetime.fromtimestamp` is modelled for the UTC timezone (the spec leaves
the timezone to the implementation; the scale-detection and fallback logic
under verification is timezone-independent).  Python floats are modelled as
exact rationals; `str()` of a float is modelled in the integral regime
`|x| < 10^16` where CPython prints `<digits>.0`.  Per the `datetime` docs,
`fromtimestamp` raises `OverflowError` when the timestamp is out of the
range of the platform `time_t` (not caught by the code, which catches only
`ValueError` and `OSError`), and `ValueError`/`OSError` for dates outside
the supported year range (caught). -/

/-- A Python value that can appear in the `timestamp` field
(`int | float | str`). -/
inductive PyVal where
  | pint (n : Int)
  | pfloat (q : Rat)
  | pstr (s : String)
deriving DecidableEq, Repr

/-- Python exceptions that can escape the embedded functions. -/
inductive PyErr where
  | attributeError
  | overflowError
deriving DecidableEq, Repr

instance {ε α : Type} [DecidableEq ε] [DecidableEq α] :
    DecidableEq (Except ε α) := fun x y =>
  match x, y with
  | .ok a, .ok b =>
    if h : a = b then .isTrue (by rw [h])
    else .isFalse (by intro he; cases he; exact h rfl)
  | .ok _, .error _ => .isFalse (by intro he; cases he)
  | .error _, .ok _ => .isFalse (by intro he; cases he)
  | .error a, .error b =>
    if h : a = b then .isTrue (by rw [h])
    else .isFalse (by intro he; cases he; exact h rfl)

/-- Errors of the modelled `datetime.fromtimestamp`. -/
inductive TsErr where
  | overflow
  | caught
deriving DecidableEq, Repr

/-- Largest `time_t` on a 64-bit platform. -/
def int64Max : Int := 9223372036854775807

/-- Civil date from days since the Unix epoch (proleptic Gregorian,
Hinnant's algorithm with floor division). -/
def civilFromDays (z0 : Int) : Int × Int × Int :=
  let z := z0 + 719468
  let era := z.fdiv 146097
  let doe := z.fmod 146097
  let yoe := (doe - doe / 1460 + doe / 36524 - doe / 146096) / 365
  let y := yoe + era * 400
  let doy := doe - (365 * yoe + yoe / 4 - yoe / 100)
  let mp := (5 * doy + 2) / 153
  let d := doy - (153 * mp + 2) / 5 + 1
  let m := mp + (if mp < 10 then 3 else -9)
  (y + (if m ≤ 2 then 1 else 0), m, d)

/-- A wall-clock date-time, as produced by the `datetime` constructors. -/
structure DateTimeV where
  year : Int
  month : Int
  day : Int
  hour : Int
  minute : Int
  second : Int
deriving DecidableEq, Repr

/-- Split epoch seconds into a UTC date-time (fractional seconds dropped,
as `%S` formatting drops them). -/
def secondsToDateTime (s : Int) : DateTimeV :=
  let days := s.fdiv 86400
  let sod := s.fmod 86400
  let ymd := civilFromDays days
  ⟨ymd.1, ymd.2.1, ymd.2.2, sod / 3600, (sod / 60) % 60, sod % 60⟩

/-- Model of `datetime.fromtimestamp` (UTC) on whole epoch seconds (the
fractional part only feeds the microsecond field, which the `%S` formatting
drops): `OverflowError` outside the `time_t` range, `ValueError`/`OSError`
(merged as `caught`) outside the supported year range 1..9999. -/
def fromtimestampSec (s : Int) : Except TsErr DateTimeV :=
  if s > int64Max ∨ s < -(int64Max + 1) then .error .overflow
  else
    let dt := secondsToDateTime s
    if dt.year < 1 ∨ dt.year > 9999 then .error .caught else .ok dt

/-- `datetime.fromtimestamp` on a float timestamp: floor to whole
seconds. -/
def fromtimestampModel (q : Rat) : Except TsErr DateTimeV :=
  fromtimestampSec q.floor

/-- Zero-pad a nonnegative integer to `w` digits. -/
def padInt (w : Nat) (n : Int) : String :=
  let s := toString n.natAbs
  let s := String.mk (List.replicate (w - s.length) '0') ++ s
  if n < 0 then "-" ++ s else s

/-- The code's `dt.strftime("%Y-%m-%d %H:%M:%S")`. -/
def strftimeYmdHms (dt : DateTimeV) : String :=
  padInt 4 dt.year ++ "-" ++ padInt 2 dt.month ++ "-" ++ padInt 2 dt.day ++
    " " ++ padInt 2 dt.hour ++ ":" ++ padInt 2 dt.minute ++ ":" ++
    padInt 2 dt.second

/-- Python `str()` of a float, modelled in the integral regime
`|x| < 10^16`, where CPython prints the digits followed by `.0`.  Other
floats are outside the modelled regime (theorems do not depend on them). -/
def pyFloatStr (q : Rat) : String :=
  if q.den = 1 ∧ q.num.natAbs < 10 ^ 16 then toString q.num ++ ".0"
  else toString q.num ++ "/" ++ toString q.den

/-- Python `str()` of the float `t / 1000` (the divided timestamp), same
modelled regime as `pyFloatStr`. -/
def pyFloatStrOfDiv (t : Int) : String :=
  if t % 1000 = 0 ∧ (t / 1000).natAbs < 10 ^ 16 then
    toString (t / 1000) ++ ".0"
  else "float:" ++ toString t ++ "/1000"

/-- Python `s.replace("Z", "+00:00")` (replaces every occurrence). -/
def pyReplaceZ (s : String) : String :=
  String.mk (s.data.flatMap (fun c => if c = 'Z' then "+00:00".data else [c]))

/-- Consume exactly `n` decimal digits. -/
def parseNDigits (n : Nat) (cs : List Char) : Option (Nat × List Char) :=
  let run := cs.take n
  if run.length = n ∧ run.all isDigitChar then some (digitsVal run, cs.drop n)
  else none

/-- Leap year test (years here are 0..9999). -/
def isLeapYear (y : Int) : Bool := y % 4 = 0 ∧ (y % 100 ≠ 0 ∨ y % 400 = 0)

/-- Days in a month. -/
def daysInMonth (y m : Int) : Int :=
  if m = 2 then (if isLeapYear y then 29 else 28)
  else if m = 4 ∨ m = 6 ∨ m = 9 ∨ m = 11 then 30
  else 31

/-- Parse the optional `[+-]HH:MM[:SS]` offset tail of an ISO string.  The
offset is validated (as `datetime` does) but does not affect `strftime`
output, which prints wall-clock components. -/
def parseIsoOffset (cs : List Char) : Bool :=
  match cs with
  | [] => true
  | sign :: r0 =>
    if sign = '+' ∨ sign = '-' then
      match parseNDigits 2 r0 with
      | some (oh, ':' :: r1) =>
        (match parseNDigits 2 r1 with
         | some (om, []) => oh < 24 ∧ om < 60
         | some (om, ':' :: r2) =>
           (match parseNDigits 2 r2 with
            | some (os, []) => oh < 24 ∧ om < 60 ∧ os < 60
            | _ => false)
         | _ => false)
      | _ => false
    else false

/-- Parse the time-of-day part `HH[:MM[:SS[.ffffff]]]` plus optional
offset. -/
def parseIsoTime (y mo d : Int) (cs : List Char) : Option DateTimeV :=
  match parseNDigits 2 cs with
  | some (hh, r0) =>
    if hh > 23 then none
    else
      match r0 with
      | ':' :: r1 =>
        (match parseNDigits 2 r1 with
         | some (mm, r2) =>
           if mm > 59 then none
           else
             (match r2 with
              | ':' :: r3 =>
                (match parseNDigits 2 r3 with
                 | some (ss, r4) =>
                   if ss > 59 then none
                   else
                     let r5 := match r4 with
                       | '.' :: rf =>
                         let frac := rf.takeWhile isDigitChar
                         if 0 < frac.length ∧ frac.length ≤ 6 then
                           some (rf.dropWhile isDigitChar)
                         else none
                       | _ => some r4
                     match r5 with
                     | some tail =>
                       if parseIsoOffset tail then
                         some ⟨y, mo, d, hh, mm, ss⟩
                       else none
                     | none => none
                 | _ => none)
              | _ =>
                if parseIsoOffset r2 then some ⟨y, mo, d, hh, mm, 0⟩ else none)
         | _ => none)
      | _ =>
        if parseIsoOffset r0 then some ⟨y, mo, d, hh, 0, 0⟩ else none
  | _ => none

/-- Model of `datetime.fromisoformat` on the colon-separated ISO-8601 forms
`YYYY-MM-DD[{T,space}HH[:MM[:SS[.ffffff]]]][±HH:MM[:SS]]` (the forms the
log pipeline can meet; the compact no-separator forms CPython 3.11 also
accepts are outside the modelled regime). -/
def pyFromIso (s : String) : Option DateTimeV :=
  match parseNDigits 4 s.data with
  | some (y, '-' :: r0) =>
    (match parseNDigits 2 r0 with
     | some (mo, '-' :: r1) =>
       (match parseNDigits 2 r1 with
        | some (d, r2) =>
          if 1 ≤ (mo : Int) ∧ (mo : Int) ≤ 12 ∧ 1 ≤ (d : Int) ∧
              (d : Int) ≤ daysInMonth y mo then
            match r2 with
            | [] => some ⟨y, mo, d, 0, 0, 0⟩
            | sep :: r3 =>
              if sep = 'T' ∨ sep = ' ' then parseIsoTime y mo d r3 else none
          else none
        | _ => none)
     | _ => none)
  | _ => none

/-- The shared tail of the numeric branch of `format_timestamp`: call the
modelled `datetime.fromtimestamp` on the whole-second part, format on
success, re-raise `OverflowError`, and return the `str(timestamp)` fallback
on a caught `ValueError`/`OSError`. -/
def convertNumeric (s : Int) (fallback : String) : Except PyErr String :=
  match fromtimestampSec s with
  | .ok dt => .ok (strftimeYmdHms dt)
  | .error .overflow => .error .overflowError
  | .error .caught => .ok fallback

/-- Embedding of `format_timestamp`: numeric timestamps above `1e12` are
divided by 1000 (Python float division, after which the local variable
holds the float); conversion failures caught by the `except (ValueError,
OSError)` clause fall back to `str(timestamp)` — the possibly already
divided value; an out-of-`time_t`-range timestamp raises an uncaught
`OverflowError`.  Python compares `int` to the float `1e12` exactly, which
is the integer comparison `t > 10^12`; the division branch only runs for
`t > 10^12 > 0`, where the float's whole-second part is the floor division
`t / 1000`. -/
def format_timestamp : PyVal → Except PyErr String
  | .pint t =>
    if t > 10 ^ 12 then
      convertNumeric (t / 1000) (pyFloatStrOfDiv t)
    else
      convertNumeric t (toString t)
  | .pfloat q0 =>
    if q0 > (10 : Rat) ^ 12 then
      convertNumeric ((q0 / 1000).floor) (pyFloatStr (q0 / 1000))
    else
      convertNumeric q0.floor (pyFloatStr q0)
  | .pstr s =>
    match pyFromIso (pyReplaceZ s) with
    | some dt => .ok (strftimeYmdHms dt)
    | none => .ok s

/-! ## `format_log_entry` (log_formatter.py lines 86-118) -/

/-- A raw CloudWatch log event (`{"timestamp": ..., "message": ...}`). -/
structure LogEvent where
  timestamp : PyVal
  message : String
deriving Repr

/-- The display-ready record returned by `format_log_entry`. -/
structure FormattedLogEntry where
  timestamp : String
  level : String
  message : String
  json_data : Option JVal
deriving Repr

/-- Python truthiness of a JSON value. -/
def pyTruthy : JVal → Bool
  | .jnull => false
  | .jbool b => b
  | .jint n => n ≠ 0
  | .jfloat q => q ≠ 0
  | .jnan => true
  | .jinf _ => true
  | .jstr s => s ≠ ""
  | .jarr xs => ¬xs.isEmpty
  | .jobj fs => ¬fs.isEmpty

/-- Dict lookup (`json_data["level"]`); keys are unique by construction. -/
def jLookup (k : String) (fields : List (String × JVal)) : Option JVal :=
  (fields.find? (fun e => e.1 = k)).map (fun e => e.2)

/-- Characters matched by the single-character branch `[@-Z\\-_]` of the
ANSI-escape regex (`0x40`-`0x5A` and `0x5C`-`0x5F`). -/
def ansiSingleFinal (c : Char) : Bool :=
  ('@' ≤ c ∧ c ≤ 'Z') || ('\\' ≤ c ∧ c ≤ '_')

/-- CSI parameter bytes `[0-?]` (`0x30`-`0x3F`). -/
def csiParam (c : Char) : Bool := '0' ≤ c ∧ c ≤ '?'

/-- CSI intermediate bytes, the range space to slash (`0x20`-`0x2F`). -/
def csiInter (c : Char) : Bool := ' ' ≤ c ∧ c ≤ '/'

/-- CSI final bytes `[@-~]` (`0x40`-`0x7E`). -/
def csiFinal (c : Char) : Bool := '@' ≤ c ∧ c ≤ '~'

/-- One attempted match of the ANSI-escape regex of `format_log_entry`
(ESC then either one byte of the single-final class, or a CSI sequence
of bracket, parameter bytes, intermediate bytes and one final byte) at the
front of `cs`, returning the remainder after the match. -/
def ansiMatchAt (cs : List Char) : Option (List Char) :=
  match cs with
  | '\x1b' :: c :: rest =>
    if ansiSingleFinal c then some rest
    else if c = '[' then
      let r1 := rest.dropWhile csiParam
      let r2 := r1.dropWhile csiInter
      match r2 with
      | f :: r3 => if csiFinal f then some r3 else none
      | [] => none
    else none
  | _ => none

/-- `ansi_escape.sub('', message)`: delete every non-overlapping leftmost
match.  Fuel is decremented once per scanned position. -/
def ansiSub (fuel : Nat) (cs : List Char) : List Char :=
  match fuel with
  | 0 => cs
  | fuel + 1 =>
    match cs with
    | [] => []
    | c :: rest =>
      match ansiMatchAt (c :: rest) with
      | some rest' => ansiSub fuel rest'
      | none => c :: ansiSub fuel rest

/-- Python `str.strip()` (ASCII whitespace model). -/
def pyStrip (cs : List Char) : List Char :=
  ((cs.dropWhile isSpaceChar).reverse.dropWhile isSpaceChar).reverse

/-- Truthiness of the optional parsed JSON (`if json_data`,
`and not json_data`). -/
def jdTruthy : Option JVal → Bool
  | some j => pyTruthy j
  | none => false

/-- The two lines `if json_data and "level" in json_data: level =
json_data["level"].upper()`: `AttributeError` is raised when the `level`
field is not a string (non-strings have no `.upper`). -/
def override_level (json_data : Option JVal) (level : String) :
    Except PyErr String :=
  if jdTruthy json_data then
    match json_data with
    | some (.jobj fields) =>
      (match jLookup "level" fields with
       | some (.jstr s) => .ok (pyUpper s)
       | some _ => .error .attributeError
       | none => .ok level)
    | _ => .ok level
  else .ok level

/-- The message-cleaning lines of `format_log_entry`: strip ANSI escapes and
surrounding whitespace, then truncate past 5000 characters when no JSON
payload was recovered. -/
def clean_message_of (message : String) (json_data : Option JVal) :
    List Char :=
  let clean_message := pyStrip (ansiSub (message.data.length + 1) message.data)
  if clean_message.length > 5000 ∧ ¬jdTruthy json_data then
    clean_message.take 5000 ++ "...".data
  else clean_message

/-- Embedding of `format_log_entry`.  The only exception sources are
`format_timestamp` (uncaught `OverflowError`) and the level override
`json_data["level"].upper()`, which raises `AttributeError` when the
`level` field is not a string. -/
def format_log_entry (event : LogEvent) (show_json : Bool) :
    Except PyErr FormattedLogEntry :=
  match format_timestamp event.timestamp with
  | .error e => .error e
  | .ok timestamp =>
    let message := event.message
    let json_data := if show_json then parse_json_log message else none
    match override_level json_data (extract_log_level message) with
    | .error e => .error e
    | .ok level =>
      .ok ⟨timestamp, level, String.mk (clean_message_of message json_data),
        json_data⟩

/-! ## Log window filtering and tail slicing (ecs.py)

`view_logs_action` (interactive, lines 198-211) and `view_logs` (direct
command, lines 662-679) both filter the fetched events by a substring test
on the uppercased raw message and then slice `events[-tail:]` when more
than `tail` events remain.  The interactive path compares the filter string
as is (its values come from a fixed uppercase choice list); the direct path
uppercases the flag value first. -/

/-- Python slice `l[k:]` for an arbitrary integer `k`. -/
def pySliceFrom (l : List α) (k : Int) : List α :=
  if k < 0 then l.drop ((l.length + k).toNat) else l.drop k.toNat

/-- The shared tail step: `if len(events) > tail: events = events[-tail:]`. -/
def tailSlice (events : List LogEvent) (tail : Int) : List LogEvent :=
  if (events.length : Int) > tail then pySliceFrom events (-tail) else events

/-- Interactive filter: `[e for e in events if level_filter in
e.get("message", "").upper()]` (the filter string used verbatim). -/
def view_logs_action_filter (level_filter : Option String)
    (events : List LogEvent) : List LogEvent :=
  match level_filter with
  | none => events
  | some f => events.filter (fun e => subIn f.data (pyUpper e.message).data)

/-- Direct-command filter: `[e for e in events if filter_level.upper() in
e.get("message", "").upper()]`. -/
def view_logs_filter (filter_level : Option String)
    (events : List LogEvent) : List LogEvent :=
  match filter_level with
  | none => events
  | some f => events.filter (fun e => subIn (pyUpper f).data (pyUpper e.message).data)

/-- Events displayed by the interactive `view_logs_action`, as a function of
the fetched window, the level filter and the requested tail. -/
def view_logs_action_events (events : List LogEvent)
    (level_filter : Option String) (tail : Int) : List LogEvent :=
  tailSlice (view_logs_action_filter level_filter events) tail

/-- Events displayed by the direct `view_logs` command. -/
def view_logs_events (events : List LogEvent) (filter_level : Option String)
    (tail : Int) : List LogEvent :=
  tailSlice (view_logs_filter filter_level events) tail

/-- The spec-side filter of claim C3: keep events whose raw message contains
the filter string as a case-insensitive substring. -/
def specFilter (f : Option String) (events : List LogEvent) : List LogEvent :=
  match f with
  | none => events
  | some f => events.filter (fun e => subIn (pyUpper f).data (pyUpper e.message).data)

/-- The last `n` elements of a list, in order. -/
def takeLast (n : Nat) (l : List α) : List α := l.drop (l.length - n)

/-! ## Service Catalog terminate flow (servicecatalog.py lines 392-438) -/

/-- A provisioned-product record as built by `list_provisioned_products`. -/
structure ProvisionedProduct where
  id : String
  name : String
  status : String
  status_message : String
  product_id : String
  product_name : String
  created : String
  arn : String
deriving DecidableEq, Repr

/-- Provider calls the terminate flow can issue. -/
inductive ScCall where
  | terminateCall (ppId : String)
deriving DecidableEq, Repr

/-- Embedding of `terminate_product_action` as the list of provider calls it
issues, given the two user inputs: the yes/no confirmation and the retyped
name.  The function mirrors the code's early returns: no confirmation →
cancelled; retyped name differing from `pp["name"]` → cancelled; otherwise
`terminate_provisioned_product(ProvisionedProductId=pp["id"])` is called
(inside a `try` that reports, but does not undo, a failed call). -/
def terminate_product_action (pp : ProvisionedProduct) (confirm : Bool)
    (confirm_name : String) : List ScCall :=
  if ¬confirm then []
  else if confirm_name ≠ pp.name then []
  else [.terminateCall pp.id]

/-! ## Interactive menu loops, error propagation (claim C8)

The menu bodies are embedded as one loop iteration over an oracle that
fixes the outcome of each external SDK call during that iteration
(`Except String` with the exception text as the error).  Payloads that only
feed string formatting are modelled as opaque numbers.  The embedding keeps
exactly the code's `try`/`except` placement: `get_service_details` and
`get_tasks` in `ecs.py` perform client calls with no surrounding `try`,
while every other call site is wrapped. -/

/-- Outcomes of the external calls one ECS menu iteration can make. -/
structure EcsOracle where
  describe_services : Except String (List Nat)
  list_tasks : Except String (List Nat)
  describe_tasks : Except String (List Nat)
  describe_task_definition : Except String (List (String × String))
  filter_log_events : Except String (List LogEvent)
  update_service : Except String Nat
  subprocess_call : Except String Nat

/-- `get_service_details` (ecs.py 43-48): unwrapped `describe_services`;
returns the first service or an empty dict (modelled as 0). -/
def get_service_details (o : EcsOracle) : Except String Nat := do
  let services ← o.describe_services
  match services with
  | s :: _ => pure s
  | [] => pure 0

/-- `get_tasks` (ecs.py 51-60): unwrapped `list_tasks` and
`describe_tasks`. -/
def get_tasks (o : EcsOracle) : Except String (List Nat) := do
  let task_arns ← o.list_tasks
  if task_arns.isEmpty then pure []
  else o.describe_tasks

/-- `get_container_log_groups` (ecs.py 63-87): the whole body is wrapped in
`try ... except Exception`, returning an empty mapping on failure.  The
extraction of `awslogs` groups from the task definition is collapsed into
the oracle payload. -/
def get_container_log_groups (o : EcsOracle) : List (String × String) :=
  match (do
      let services ← o.describe_services
      match services with
      | [] => pure []
      | _ :: _ => o.describe_task_definition) with
  | .ok lgs => lgs
  | .error _ => []

/-- Error flow of `view_logs_action` (ecs.py 118-214): helper is internally
caught, the fetch is wrapped; no path re-raises. -/
def view_logs_action_flow (o : EcsOracle) : Except String Unit :=
  let log_groups := get_container_log_groups o
  if log_groups.isEmpty then pure ()
  else
    match o.filter_log_events with
    | .ok _ => pure ()
    | .error _ => pure ()

/-- Error flow of `view_tasks_action` (ecs.py 217-259): `get_tasks` is
called with no `try` — its failure propagates. -/
def view_tasks_action_flow (o : EcsOracle) : Except String Unit := do
  let _tasks ← get_tasks o
  pure ()

/-- Error flow of `execute_command_action` (ecs.py 315-372): `get_tasks`
unwrapped, the subprocess call wrapped. -/
def execute_command_action_flow (o : EcsOracle) (has_plugin : Bool) :
    Except String Unit :=
  if ¬has_plugin then pure ()
  else do
    let tasks ← get_tasks o
    if tasks.isEmpty then pure ()
    else
      match o.subprocess_call with
      | .ok _ => pure ()
      | .error _ => pure ()

/-- Error flow of `force_task_action` (ecs.py 262-306): the
`update_service` call is wrapped. -/
def force_task_action_flow (o : EcsOracle) (confirm : Bool) :
    Except String Unit :=
  if ¬confirm then pure ()
  else
    match o.update_service with
    | .ok _ => pure ()
    | .error _ => pure ()

/-- Result of one menu iteration. -/
inductive StepResult where
  | cont
  | back
  | exit
deriving DecidableEq, Repr

/-- Choices of the ECS action menu. -/
inductive EcsAction where
  | exec | logs | tasks | force | refresh | back | exit
deriving DecidableEq, Repr

/-- User inputs of one ECS menu iteration. -/
structure EcsInputs where
  action : EcsAction
  confirm_force : Bool
  has_plugin : Bool
deriving Repr

/-- One iteration of `interactive_menu` (ecs.py 375-427): the service-info
refresh at the top runs OUTSIDE any `try`, then the chosen action runs. -/
def interactive_menu_step (o : EcsOracle) (inp : EcsInputs) :
    Except String StepResult := do
  let _service_details ← get_service_details o
  let _tasks ← get_tasks o
  match inp.action with
  | .exec => do execute_command_action_flow o inp.has_plugin; pure .cont
  | .logs => do view_logs_action_flow o; pure .cont
  | .tasks => do view_tasks_action_flow o; pure .cont
  | .force => do force_task_action_flow o inp.confirm_force; pure .cont
  | .refresh => pure .cont
  | .back => pure .back
  | .exit => pure .exit

/-- Outcomes of the external calls one provisioned-product menu iteration
can make. -/
structure ScOracle where
  describe_provisioned_product : Except String ProvisionedProduct
  terminate_provisioned_product : Except String Nat

/-- `get_provisioned_product_detail` (servicecatalog.py 155-176): wrapped;
an exception yields the empty dict, which the menu treats as missing. -/
def get_provisioned_product_detail_flow (o : ScOracle) :
    Option ProvisionedProduct :=
  match o.describe_provisioned_product with
  | .ok pp => some pp
  | .error _ => none

/-- Error flow of `terminate_product_action`: the provider call itself is
wrapped in `try ... except`. -/
def terminate_product_action_flow (o : ScOracle) (pp : ProvisionedProduct)
    (confirm : Bool) (confirm_name : String) : Except String Unit :=
  if ¬confirm then pure ()
  else if confirm_name ≠ pp.name then pure ()
  else
    match o.terminate_provisioned_product with
    | .ok _ => pure ()
    | .error _ => pure ()

/-- Choices of the provisioned-product action menu. -/
inductive ScAction where
  | refresh | terminate | back | exit
deriving DecidableEq, Repr

/-- User inputs of one provisioned-product menu iteration. -/
structure ScInputs where
  action : ScAction
  confirm : Bool
  confirm_name : String
deriving Repr

/-- One iteration of `interactive_provisioned_menu` (servicecatalog.py
441-497). -/
def interactive_provisioned_menu_step (o : ScOracle)
    (pp : ProvisionedProduct) (inp : ScInputs) : Except String StepResult :=
  match get_provisioned_product_detail_flow o with
  | none => pure .back
  | some _details =>
    match inp.action with
    | .refresh => pure .cont
    | .terminate => do
        terminate_product_action_flow o pp inp.confirm inp.confirm_name
        pure .cont
    | .back => pure .back
    | .exit => pure .exit

/-- Whether an `Except` computation completed without an exception. -/
def exceptOk : Except ε α → Bool
  | .ok _ => true
  | .error _ => false

/-! ## Session cache (`aws_client.py`, claim C9)

`get_session` carries `@lru_cache(maxsize=10)`: a hit returns the cached
session (and refreshes its recency), a miss constructs a new session,
evicting the least recently used entry once ten are cached.  Sessions are
modelled as their construction number; `entries` is ordered most recent
first. -/

/-- State of the `lru_cache` on `get_session`. -/
structure SessionCache where
  entries : List (String × Nat)
  nextId : Nat
deriving DecidableEq, Repr

/-- The empty cache at import time. -/
def emptyCache : SessionCache := ⟨[], 0⟩

/-- Cached session for a profile, if present. -/
def lruLookup (profile : String) (st : SessionCache) : Option Nat :=
  (st.entries.find? (fun e => e.1 == profile)).map (fun e => e.2)

/-- Embedding of `get_session` under `@lru_cache(maxsize=10)`: returns the
session handle and the new cache state.  A hit never constructs (the
construction counter is unchanged) and refreshes the entry's recency; a
miss constructs exactly one session, evicting the least recently used entry
when ten are already cached. -/
def get_session (profile : String) (st : SessionCache) :
    Nat × SessionCache :=
  match st.entries.find? (fun e => e.1 == profile) with
  | some e =>
    (e.2, ⟨(profile, e.2) :: st.entries.filter (fun x => !(x.1 == profile)),
      st.nextId⟩)
  | none =>
    let v := st.nextId
    let kept := if st.entries.length ≥ 10 then st.entries.dropLast
      else st.entries
    (v, ⟨(profile, v) :: kept, v + 1⟩)

/-- The fixed `botocore.config.Config` built by `get_client`. -/
structure BotoConfig where
  max_attempts : Nat
  mode : String
  connect_timeout : Nat
  read_timeout : Nat
deriving DecidableEq, Repr

/-- `Config(retries=..., connect_timeout=10, read_timeout=30)`. -/
def clientConfig : BotoConfig := ⟨3, "standard", 10, 30⟩

/-- A constructed boto3 client: the session it came from, the service, the
fixed config and the optional region. -/
structure BotoClient where
  session : Nat
  service : String
  config : BotoConfig
  region : Option String
deriving DecidableEq, Repr

/-- Embedding of `get_client`: always builds a fresh client object on the
session returned by the cached `get_session`. -/
def get_client (service : String) (profile : String) (region : Option String)
    (st : SessionCache) : BotoClient × SessionCache :=
  let sessionSt := get_session profile st
  (⟨sessionSt.1, service, clientConfig, region⟩, sessionSt.2)

/-! ## Sorted resource listings (claim C10) -/

/-- Python `s.split("/")[-1]`. -/
def lastSegment (s : String) : String :=
  match (s.splitOn "/").getLast? with
  | some x => x
  | none => s

/-- The comparison `list.sort(key=str.lower)` sorts by: lowercased strings
under Python's lexicographic-by-code-point order (Lean's `≤` on `String`).
`List.insertionSort` is a stable sort, like Python's. -/
def lowerLe (a b : String) : Prop := pyLower a ≤ pyLower b

instance : DecidableRel lowerLe := fun a b =>
  inferInstanceAs (Decidable (pyLower a ≤ pyLower b))

/-- `list_services` (ecs.py 31-40): ARN tails, sorted case-insensitively. -/
def list_services (serviceArns : List String) : List String :=
  let service_names := serviceArns.map lastSegment
  List.insertionSort lowerLe service_names

/-- A `ProductViewSummary` as consumed by `list_products`
(servicecatalog.py 36-57); absent optional keys are `none`. -/
structure ProductView where
  productId : String
  pname : String
  shortDescription : Option String
  ptype : Option String
  owner : Option String
  viewId : Option String
deriving Repr

/-- The record `list_products` builds per product view. -/
structure Product where
  id : String
  name : String
  description : String
  ptype : String
  owner : String
  view_id : String
deriving DecidableEq, Repr

/-- Case-insensitive name order on products (`key=lambda x:
x["name"].lower()`). -/
def productLe (a b : Product) : Prop := pyLower a.name ≤ pyLower b.name

instance : DecidableRel productLe := fun a b =>
  inferInstanceAs (Decidable (pyLower a.name ≤ pyLower b.name))

/-- The record construction inside the `list_products` page loop. -/
def product_of_view (v : ProductView) : Product :=
  ⟨v.productId, v.pname, v.shortDescription.getD "", v.ptype.getD "",
   v.owner.getD "", v.viewId.getD ""⟩

/-- `list_products`: build the records, then
`products.sort(key=lambda x: x["name"].lower())`. -/
def list_products (views : List ProductView) : List Product :=
  List.insertionSort productLe (views.map product_of_view)

/-- A `ProvisionedProduct` page entry as consumed by
`list_provisioned_products` (servicecatalog.py 129-152). -/
structure PPView where
  pId : String
  pName : String
  pStatus : String
  statusMessage : Option String
  productId : Option String
  productName : Option String
  createdTime : Option String
  arn : Option String
deriving Repr

/-- Case-insensitive name order on provisioned products. -/
def ppLe (a b : ProvisionedProduct) : Prop := pyLower a.name ≤ pyLower b.name

instance : DecidableRel ppLe := fun a b =>
  inferInstanceAs (Decidable (pyLower a.name ≤ pyLower b.name))

/-- The record construction inside the `list_provisioned_products` page
loop. -/
def pp_of_view (pp : PPView) : ProvisionedProduct :=
  ⟨pp.pId, pp.pName, pp.pStatus, pp.statusMessage.getD "",
   pp.productId.getD "", pp.productName.getD "N/A",
   pp.createdTime.getD "", pp.arn.getD ""⟩

/-- `list_provisioned_products`: build the records, then sort by lowercased
name. -/
def list_provisioned_products (pages : List PPView) :
    List ProvisionedProduct :=
  List.insertionSort ppLe (pages.map pp_of_view)

/-! ## Derived definitions used in theorem statements -/

/-- The JSON `level` field that `format_log_entry` would use for the
override, when the message parses to a truthy (non-empty) object that has
one. -/
def jsonLevelOverride (message : String) : Option JVal :=
  match parse_json_log message with
  | some (.jobj fields) =>
    if fields.isEmpty then none else jLookup "level" fields
  | _ => none

/-- The `level` field of a successfully formatted entry. -/
def formattedLevel (event : LogEvent) : Option String :=
  match format_log_entry event true with
  | .ok e => some e.level
  | .error _ => none

/-- Eleven distinct profile names (one more than the cache capacity). -/
def demoProfiles : List String := (List.range 11).map (fun i => "p" ++ toString i)

/-- The cache after acquiring a session for each of the eleven profiles in
turn, starting from the empty cache. -/
def demoCache : SessionCache :=
  demoProfiles.foldl (fun st p => (get_session p st).2) emptyCache

/-- A 120-event fetched window. -/
def demoEvents : List LogEvent :=
  (List.range 120).map (fun i => ⟨.pint (i : Int), "message " ++ toString i⟩)

/-- A 120-event window in which exactly the ten multiples of 12 mention
ERROR. -/
def demoErrEvents : List LogEvent :=
  (List.range 120).map (fun i =>
    ⟨.pint (i : Int),
     (if i % 12 = 0 then "ERROR in step " else "step ") ++ toString i⟩)

/-- A provisioned product used in concrete scenarios. -/
def demoPP : ProvisionedProduct :=
  ⟨"pp-1", "myapp-instance", "AVAILABLE", "", "prod-1", "MyApp", "",
   "arn:aws:servicecatalog:pp-1"⟩

/-- An ECS oracle whose every call succeeds. -/
def demoEcsOracle : EcsOracle :=
  ⟨.ok [1], .ok [2], .ok [3], .ok [("app", "lg-app")], .ok [], .ok 0, .ok 0⟩

/-- An ECS oracle whose `describe_services` call raises. -/
def failEcsOracle : EcsOracle :=
  ⟨.error "ThrottlingException", .ok [], .ok [], .ok [], .ok [], .ok 0,
   .ok 0⟩

/-- A Service Catalog oracle whose terminate call raises. -/
def demoScOracle : ScOracle := ⟨.ok demoPP, .error "AccessDeniedException"⟩

/-! ## Order instances for the sort relations -/

instance : IsTotal String lowerLe := ⟨fun a b => le_total (pyLower a) (pyLower b)⟩

instance : IsTrans String lowerLe := ⟨fun _ _ _ h1 h2 => le_trans h1 h2⟩

instance : IsTotal Product productLe :=
  ⟨fun a b => le_total (pyLower a.name) (pyLower b.name)⟩

instance : IsTrans Product productLe := ⟨fun _ _ _ h1 h2 => le_trans h1 h2⟩

instance : IsTotal ProvisionedProduct ppLe :=
  ⟨fun a b => le_total (pyLower a.name) (pyLower b.name)⟩

instance : IsTrans ProvisionedProduct ppLe := ⟨fun _ _ _ h1 h2 => le_trans h1 h2⟩

/-! ## Lemmas about level extraction -/

/-- The per-pattern loop body behaves like the amended spec step: the dead
`WARNING`→`WARN` branch is unreachable because `WARNING` is a
`LEVEL_COLORS` key. -/
theorem patternStep_eq_amendedStep (found : Option (List Char)) (next : String) :
    patternStep found next = amendedStep found next := by
  cases found with
  | none => rfl
  | some cap =>
    simp only [patternStep, amendedStep]
    by_cases h : String.mk (cap.map pyUpperChar) ∈ LEVEL_COLORS_keys
    · simp [h]
    · have hw : ¬String.mk (cap.map pyUpperChar) = "WARNING" := by
        intro he
        rw [he] at h
        exact h (by decide)
      simp [h, hw]

/-- The content fallback only produces `LEVEL_COLORS` keys. -/
theorem contentFallback_mem (m : String) :
    contentFallback m ∈ LEVEL_COLORS_keys := by
  unfold contentFallback
  split_ifs <;> decide

/-- The loop body only produces `LEVEL_COLORS` keys, given that the
fall-through value is one. -/
theorem patternStep_mem (found : Option (List Char)) (next : String)
    (h : next ∈ LEVEL_COLORS_keys) :
    patternStep found next ∈ LEVEL_COLORS_keys := by
  cases found with
  | none => exact h
  | some cap =>
    simp only [patternStep]
    split_ifs with h1 h2
    · exact h1
    · decide
    · exact h

/-- `extract_log_level` always returns one of the six `LEVEL_COLORS`
keys. -/
theorem extract_log_level_mem (m : String) :
    extract_log_level m ∈ LEVEL_COLORS_keys := by
  unfold extract_log_level
  exact patternStep_mem _ _ (patternStep_mem _ _ (patternStep_mem _ _
    (patternStep_mem _ _ (contentFallback_mem _))))

/-- The level-override computation, re-expressed through
`jsonLevelOverride`. -/
theorem override_level_eq (message level : String) :
    override_level (parse_json_log message) level =
      (match jsonLevelOverride message with
       | none => .ok level
       | some (.jstr s) => .ok (pyUpper s)
       | some _ => .error .attributeError) := by
  unfold override_level jsonLevelOverride jdTruthy
  cases parse_json_log message with
  | none => rfl
  | some j =>
    cases j with
    | jobj fields =>
      by_cases he : fields.isEmpty
      · simp [pyTruthy, he]
      · simp only [pyTruthy, he, Bool.not_false, if_pos, if_neg]
        cases hlk : jLookup "level" fields with
        | none => simp [he, hlk]
        | some v => cases v <;> simp [he, hlk]
    | jnull => simp [pyTruthy]
    | jbool b => cases b <;> simp [pyTruthy]
    | jint n => by_cases hn : n = 0 <;> simp [pyTruthy, hn]
    | jfloat q => by_cases hq : q = 0 <;> simp [pyTruthy, hq]
    | jnan => simp [pyTruthy]
    | jinf b => simp [pyTruthy]
    | jstr s => by_cases hs : s = "" <;> simp [pyTruthy, hs]
    | jarr xs => by_cases hx : xs.isEmpty <;> simp [pyTruthy, hx]

/-- A successful `format_log_entry` carries the level produced by the
override computation. -/
theorem format_log_entry_ok_level (ev : LogEvent) (e : FormattedLogEntry)
    (h : format_log_entry ev true = .ok e) :
    override_level (parse_json_log ev.message) (extract_log_level ev.message)
      = .ok e.level := by
  unfold format_log_entry at h
  cases hts : format_timestamp ev.timestamp with
  | error err => rw [hts] at h; cases h
  | ok ts =>
    rw [hts] at h
    simp only [if_true] at h
    cases hov : override_level (parse_json_log ev.message)
        (extract_log_level ev.message) with
    | error err2 => rw [hov] at h; cases h
    | ok lvl => rw [hov] at h; cases h; rfl

/-! ## Claim C2 — layered level-extraction heuristics -/

/-- C2 (counterexample): on a `"level": "warning"` key-value message (and
likewise a bracketed `[warning]` tag) the claimed extraction — the captured
word normalized `WARNING`→`WARN` — yields `WARN`, but the code returns
`WARNING`: the normalization branch is dead because `WARNING` is itself a
`LEVEL_COLORS` key. -/
theorem C2_counterexample :
    extract_log_level "\"level\": \"warning\" disk low" = "WARNING" ∧
    extractLevelSpec "\"level\": \"warning\" disk low" = "WARN" ∧
    extract_log_level "[warning] x" = "WARNING" ∧
    extractLevelSpec "[warning] x" = "WARN" ∧
    ("WARNING" : String) ≠ "WARN" :=
  ⟨rfl, rfl, rfl, rfl, by decide⟩

/-- C2 (amended): `extract_log_level` applies the layered heuristics in
order with first match winning — key-value `level` pattern, key-value
`severity` pattern, bracketed token, standalone level word, then the
ERROR/EXCEPTION/FAILED/WARN content fallback, then INFO — where a captured
word is returned (uppercased) exactly when it is one of the six known level
names, `WARNING` staying unnormalized. -/
theorem C2_extract_level_layered (m : String) :
    extract_log_level m = extractLevelAmended m := by
  unfold extract_log_level extractLevelAmended
  simp only [patternStep_eq_amendedStep]

/-! ## Claim C1 — levels are drawn from the known level set -/

/-- C1 (counterexample): the level is NOT always one of the five enum
values.  A bracketed `warning` tag extracts to `WARNING`, and a JSON
`level` field overrides to its uppercased value even when that value
(`CRITICAL`) is no level at all. -/
theorem C1_counterexample :
    extract_log_level "[WARNING] disk almost full" = "WARNING" ∧
    ("WARNING" : String) ∉ specLevels ∧
    formattedLevel ⟨.pint 0, "\x7b\"level\": \"critical\"\x7d"⟩ =
      some "CRITICAL" ∧
    ("CRITICAL" : String) ∉ specLevels :=
  ⟨rfl, by decide, rfl, by decide⟩

/-- C1 (amended): `extract_log_level` always returns one of the SIX
`LEVEL_COLORS` keys (ERROR, WARN, WARNING, INFO, DEBUG, TRACE) — unmapped
matches fall through and end at INFO — and a formatted entry's level is
that heuristic value whenever no JSON `level` override applies, while an
applied override replaces it with the uppercased JSON string, which is not
confined to the enum. -/
theorem C1_level_always_known :
    (∀ m : String, extract_log_level m ∈ LEVEL_COLORS_keys) ∧
    (∀ ev e, format_log_entry ev true = .ok e →
      jsonLevelOverride ev.message = none → e.level ∈ LEVEL_COLORS_keys) ∧
    (∀ ev e s, format_log_entry ev true = .ok e →
      jsonLevelOverride ev.message = some (.jstr s) → e.level = pyUpper s) := by
  refine ⟨extract_log_level_mem, ?_, ?_⟩
  · intro ev e h hov
    have h2 := format_log_entry_ok_level ev e h
    simp only [override_level_eq, hov] at h2
    injection h2 with h3
    rw [← h3]
    exact extract_log_level_mem _
  · intro ev e s h hov
    have h2 := format_log_entry_ok_level ev e h
    simp only [override_level_eq, hov] at h2
    injection h2 with h3
    exact h3.symm

/-- C1 (witness): both hypothesized parts applied at concrete events — a
plain bracketed ERROR line (no override) and a JSON line whose `level`
field is `"warn"`. -/
theorem C1_witness :
    (FormattedLogEntry.mk "1970-01-01 00:00:00" "ERROR"
      "[ERROR] connection refused" none).level ∈ LEVEL_COLORS_keys ∧
    (FormattedLogEntry.mk "1970-01-01 00:00:00" "WARN"
      "\x7b\"level\":\"warn\",\"msg\":\"disk low\"\x7d"
      (some (.jobj [("level", .jstr "warn"),
        ("msg", .jstr "disk low")]))).level = pyUpper "warn" :=
  ⟨C1_level_always_known.2.1 ⟨.pint 0, "[ERROR] connection refused"⟩ _ rfl rfl,
   C1_level_always_known.2.2
     ⟨.pint 0, "\x7b\"level\":\"warn\",\"msg\":\"disk low\"\x7d"⟩ _ "warn"
     rfl rfl⟩

/-! ## Lemmas about the JSON brace span -/

/-- `takeToLastBrace` fails exactly when no closing brace follows. -/
theorem takeToLastBrace_eq_none_iff (cs : List Char) :
    takeToLastBrace cs = none ↔ '}' ∉ cs := by
  unfold takeToLastBrace
  split_ifs with h
  · simp only [true_iff]
    rw [List.isEmpty_iff, List.dropWhile_eq_nil_iff] at h
    intro hm
    have := h '}' (List.mem_reverse.mpr hm)
    simp at this
  · simp only [false_iff, not_not]
    rw [List.isEmpty_iff] at h
    rcases hd : cs.reverse.dropWhile (fun c => ¬(c = '}')) with _ | ⟨c, rest⟩
    · exact absurd hd h
    · have hh := List.head?_dropWhile_not
        (fun c => decide ¬(c = '}')) cs.reverse
      rw [hd] at hh
      simp at hh
      have hmem : c ∈ cs.reverse := by
        have hsub := List.dropWhile_sublist (l := cs.reverse)
          (fun c => decide ¬(c = '}'))
        rw [hd] at hsub
        exact hsub.mem (List.mem_cons_self c rest)
      rw [← hh]
      exact List.mem_reverse.mp hmem

/-- `searchSpan` finds nothing when the string has no closing brace. -/
theorem searchSpan_eq_none_of_no_close (cs : List Char) (h : '}' ∉ cs) :
    searchSpan cs = none := by
  induction cs with
  | nil => rfl
  | cons c rest ih =>
    have hr : '}' ∉ rest := fun hm => h (List.mem_cons_of_mem _ hm)
    unfold searchSpan
    by_cases hc : c = '{'
    · rw [if_pos hc, (takeToLastBrace_eq_none_iff rest).mpr hr]
      exact ih hr
    · rw [if_neg hc]
      exact ih hr

/-- The regex search for the brace span equals the spec's description of
it: from the first `\{` of the message to its last `\}`. -/
theorem searchSpan_eq_specSpan (cs : List Char) :
    searchSpan cs = specSpan cs := by
  induction cs with
  | nil => rfl
  | cons c rest ih =>
    by_cases hc : c = '{'
    · subst hc
      unfold searchSpan specSpan
      rw [if_pos rfl, List.dropWhile_cons, if_neg (by simp)]
      rcases ht : takeToLastBrace rest with _ | body
      · simp only [ht, Option.map_none', if_pos]
        exact searchSpan_eq_none_of_no_close rest
          ((takeToLastBrace_eq_none_iff rest).mp ht)
      · simp only [ht, Option.map_some', if_pos]
    · unfold searchSpan specSpan
      rw [if_neg hc, List.dropWhile_cons, if_pos (by simpa using hc)]
      exact ih

/-! ## Claim C6 — `parse_json_log` never raises and uses the greedy span -/

/-- C6: `parse_json_log` is total (it is a function into `Option`, the
embedded `try` swallowing every `JSONDecodeError`); it parses exactly the
first-brace-to-last-brace span, returning `none` when no such span exists
or the span is not valid JSON; in particular any message without a `\{` (or
without a closing `\}` after it) yields `none`. -/
theorem C6_parse_json_total :
    (∀ s : String, (∀ c ∈ s.data, c ≠ '{') → parse_json_log s = none) ∧
    (∀ s : String, parse_json_log s =
      (match specSpan s.data with
       | some span => jsonLoads span
       | none => none)) := by
  constructor
  · intro s h
    unfold parse_json_log
    rw [searchSpan_eq_specSpan]
    unfold specSpan
    rw [List.dropWhile_eq_nil_iff.mpr (by
      intro x hx
      simpa using h x hx)]
  · intro s
    unfold parse_json_log
    rw [searchSpan_eq_specSpan]

/-- C6 (witness): applied to a concrete brace-free message and a concrete
JSON-bearing one. -/
theorem C6_witness :
    parse_json_log "no json to see here" = none ∧
    parse_json_log "x \x7b\"a\": 1\x7d y" =
      (match specSpan ("x \x7b\"a\": 1\x7d y").data with
       | some span => jsonLoads span
       | none => none) :=
  ⟨C6_parse_json_total.1 "no json to see here" (by decide),
   C6_parse_json_total.2 "x \x7b\"a\": 1\x7d y"⟩

/-! ## Claim C4 — `format_log_entry` is supposed never to raise -/

/-- C4 (code bug): on the event `\x7b"timestamp": 0, "message":
'\x7b"level": 5\x7d'\x7d` the code evaluates `json_data["level"].upper()`
on an `int` and raises `AttributeError`, contradicting the spec's
"cannot fail" contract for the formatter. -/
theorem C4_nonstring_level_raises :
    format_log_entry ⟨.pint 0, "\x7b\"level\": 5\x7d"⟩ true =
      .error .attributeError := rfl

/-! ## Claim C5 — timestamp scale detection and fallback -/

/-- C5 (counterexample): a failed conversion does NOT always fall back to
the stringified raw input.  For `10^16` the variable was already divided,
so the fallback prints the divided float `10000000000000.0`; and for
`10^22` the conversion failure is an uncaught `OverflowError`, not a
fallback at all. -/
theorem C5_counterexample :
    format_timestamp (.pint (10 ^ 16)) = .ok "10000000000000.0" ∧
    toString (10 ^ 16 : Int) = "10000000000000000" ∧
    ("10000000000000.0" : String) ≠ "10000000000000000" ∧
    format_timestamp (.pint (10 ^ 22)) = .error .overflowError :=
  ⟨by decide, by decide, by decide, by decide⟩

/-- C5 (amended): numeric timestamps are divided by 1000 exactly when above
`1e12` (so `1700000000000` formats like `1700000000` and maps to
`2023-11-14 22:13:20` under the UTC model); strings are parsed as ISO-8601
after replacing `Z` with `+00:00`, falling back to the raw string itself;
a caught conversion failure (`ValueError`/`OSError`) falls back to `str()`
of the current value of the timestamp variable — the raw input when no
division happened. -/
theorem C5_timestamp_scale :
    (∀ t : Int, t > 10 ^ 12 → t / 1000 ≤ 10 ^ 12 →
      ∀ dt, fromtimestampSec (t / 1000) = .ok dt →
      format_timestamp (.pint t) = format_timestamp (.pint (t / 1000))) ∧
    (∀ t : Int, t ≤ 10 ^ 12 → ∀ dt, fromtimestampSec t = .ok dt →
      format_timestamp (.pint t) = .ok (strftimeYmdHms dt)) ∧
    format_timestamp (.pint 1700000000000) = .ok "2023-11-14 22:13:20" ∧
    (∀ s : String, ∀ dt, pyFromIso (pyReplaceZ s) = some dt →
      format_timestamp (.pstr s) = .ok (strftimeYmdHms dt)) ∧
    (∀ s : String, pyFromIso (pyReplaceZ s) = none →
      format_timestamp (.pstr s) = .ok s) ∧
    (∀ t : Int, t ≤ 10 ^ 12 → fromtimestampSec t = .error .caught →
      format_timestamp (.pint t) = .ok (toString t)) := by
  refine ⟨?_, ?_, by decide, ?_, ?_, ?_⟩
  · intro t h1 h3 dt h4
    simp only [format_timestamp]
    rw [if_pos h1, if_neg (not_lt.mpr h3)]
    unfold convertNumeric
    rw [h4]
  · intro t h1 dt h2
    simp only [format_timestamp]
    rw [if_neg (not_lt.mpr h1)]
    unfold convertNumeric
    rw [h2]
  · intro s dt h
    simp only [format_timestamp]
    rw [h]
  · intro s h
    simp only [format_timestamp]
    rw [h]
  · intro t h1 h2
    simp only [format_timestamp]
    rw [if_neg (not_lt.mpr h1)]
    unfold convertNumeric
    rw [h2]

/-- C5 (witness): the amended theorem applied at the spec's own scenario
value `1700000000000`, at a no-division value, at a `Z`-suffixed ISO
string, at an unparseable string, and at a caught-failure integer. -/
theorem C5_witness :
    format_timestamp (.pint 1700000000000) =
      format_timestamp (.pint 1700000000) ∧
    format_timestamp (.pint 1700000000) =
      .ok (strftimeYmdHms ⟨2023, 11, 14, 22, 13, 20⟩) ∧
    format_timestamp (.pstr "2023-11-14T22:13:20Z") =
      .ok (strftimeYmdHms ⟨2023, 11, 14, 22, 13, 20⟩) ∧
    format_timestamp (.pstr "not a timestamp") = .ok "not a timestamp" ∧
    format_timestamp (.pint (-(10 ^ 12))) = .ok (toString (-(10 ^ 12) : Int)) :=
  ⟨C5_timestamp_scale.1 1700000000000 (by norm_num) (by norm_num)
     ⟨2023, 11, 14, 22, 13, 20⟩ (by decide),
   C5_timestamp_scale.2.1 1700000000 (by norm_num)
     ⟨2023, 11, 14, 22, 13, 20⟩ (by decide),
   C5_timestamp_scale.2.2.2.1 "2023-11-14T22:13:20Z"
     ⟨2023, 11, 14, 22, 13, 20⟩ (by decide),
   C5_timestamp_scale.2.2.2.2.1 "not a timestamp" (by decide),
   C5_timestamp_scale.2.2.2.2.2 (-(10 ^ 12)) (by norm_num) (by decide)⟩

/-! ## Claim C3 — level filter then tail slice -/

/-- For a positive requested tail, the Python
`if len(events) > tail: events = events[-tail:]` step yields exactly the
last `tail` events. -/
theorem tailSlice_eq_takeLast (l : List LogEvent) (n : Nat) (hn : 1 ≤ n) :
    tailSlice l (n : Int) = takeLast n l := by
  unfold tailSlice pySliceFrom takeLast
  by_cases h : l.length ≤ n
  · rw [if_neg (by exact_mod_cast not_lt.mpr h)]
    rw [Nat.sub_eq_zero_of_le h, List.drop_zero]
  · push_neg at h
    rw [if_pos (by exact_mod_cast h)]
    rw [if_pos (by omega)]
    congr 1
    omega

/-- C3 (counterexample): with a requested tail of 0 and one event, the code
displays the event (`events[-0:]` is the whole list), not the last 0
events. -/
theorem C3_counterexample :
    view_logs_events [⟨.pint 0, "hello"⟩] none 0 = [⟨.pint 0, "hello"⟩] ∧
    takeLast 0 [(⟨.pint 0, "hello"⟩ : LogEvent)] = [] :=
  ⟨rfl, rfl⟩

/-- C3 (amended): for every requested tail `n ≥ 1`, the displayed events
are the case-insensitive-filtered events' last `n`, in original order — in
the direct command unconditionally, and in the interactive path for its
(uppercase) filter choices. -/
theorem C3_tail_filter (events : List LogEvent) (f : Option String)
    (n : Nat) (hn : 1 ≤ n) :
    view_logs_events events f (n : Int) = takeLast n (specFilter f events) ∧
    ((∀ f', f = some f' → pyUpper f' = f') →
      view_logs_action_events events f (n : Int) =
        takeLast n (specFilter f events)) := by
  constructor
  · unfold view_logs_events
    rw [tailSlice_eq_takeLast _ n hn]
    rfl
  · intro hf
    unfold view_logs_action_events
    rw [tailSlice_eq_takeLast _ n hn]
    cases f with
    | none => rfl
    | some f' =>
      have hupper := hf f' rfl
      simp only [view_logs_action_filter, specFilter, hupper]

/-- C3 (witness): the claim's two scenarios — a 120-event window with tail
50 and no filter displays the last 50; the same window size with an ERROR
filter matching exactly 10 events displays those 10 (10 < 50). -/
theorem C3_witness :
    view_logs_events demoEvents none 50 =
      takeLast 50 (specFilter none demoEvents) ∧
    view_logs_events demoErrEvents (some "ERROR") 50 =
      takeLast 50 (specFilter (some "ERROR") demoErrEvents) ∧
    demoEvents.length = 120 ∧
    (specFilter (some "ERROR") demoErrEvents).length = 10 :=
  ⟨(C3_tail_filter demoEvents none 50 (by decide)).1,
   (C3_tail_filter demoErrEvents (some "ERROR") 50 (by decide)).1,
   by decide, by decide⟩

/-! ## Claim C7 — double-confirmed terminate -/

/-- C7: the provider terminate call is issued exactly when the user both
confirms and retypes the resource name verbatim; any other combination
issues no provider call at all.  In particular the claim's typo scenario
(`myapp-instnace` against `myapp-instance`) cancels with no call. -/
theorem C7_terminate_confirmation :
    (∀ (pp : ProvisionedProduct) (confirm : Bool) (typed : String),
      terminate_product_action pp confirm typed =
        if confirm = true ∧ typed = pp.name then [.terminateCall pp.id]
        else []) ∧
    terminate_product_action demoPP true "myapp-instnace" = [] ∧
    terminate_product_action demoPP true "myapp-instance" =
      [.terminateCall "pp-1"] := by
  refine ⟨?_, rfl, rfl⟩
  intro pp confirm typed
  unfold terminate_product_action
  cases confirm with
  | false => simp
  | true =>
    by_cases ht : typed = pp.name
    · simp [ht]
    · simp [ht]

/-! ## Claim C8 — exception handling in the interactive menu loops -/

/-- The logs action never propagates an exception (its helpers catch
internally and its fetch is wrapped). -/
theorem view_logs_action_flow_ok (o : EcsOracle) :
    exceptOk (view_logs_action_flow o) = true := by
  unfold view_logs_action_flow
  by_cases h : (get_container_log_groups o).isEmpty
  · rw [if_pos h]; rfl
  · rw [if_neg h]
    cases o.filter_log_events <;> rfl

/-- The force-deploy action never propagates an exception. -/
theorem force_task_action_flow_ok (o : EcsOracle) (confirm : Bool) :
    exceptOk (force_task_action_flow o confirm) = true := by
  unfold force_task_action_flow
  by_cases h : confirm
  · simp only [h]
    cases o.update_service <;> rfl
  · simp only [h]
    rfl

/-- Reduction of `Except` bind on a success value. -/
theorem except_ok_bind {ε α β : Type} (a : α) (f : α → Except ε β) :
    ((Except.ok a : Except ε α) >>= f) = f a := rfl

/-- The terminate action never propagates an exception (the provider call
is wrapped). -/
theorem terminate_product_action_flow_ok (o : ScOracle)
    (pp : ProvisionedProduct) (confirm : Bool) (confirm_name : String) :
    exceptOk (terminate_product_action_flow o pp confirm confirm_name)
      = true := by
  unfold terminate_product_action_flow
  by_cases h1 : confirm
  · rw [if_neg (not_not_intro h1)]
    by_cases h2 : confirm_name ≠ pp.name
    · rw [if_pos h2]
      rfl
    · rw [if_neg h2]
      cases o.terminate_provisioned_product <;> rfl
  · rw [if_pos h1]
    rfl

/-- `get_tasks` succeeds when both of its unwrapped provider calls do. -/
theorem get_tasks_ok (o : EcsOracle) (h1 : exceptOk o.list_tasks = true)
    (h2 : exceptOk o.describe_tasks = true) :
    exceptOk (get_tasks o) = true := by
  unfold get_tasks
  cases hlt : o.list_tasks with
  | error e => rw [hlt] at h1; cases h1
  | ok arns =>
    simp only [hlt, except_ok_bind]
    by_cases harns : arns.isEmpty
    · rw [if_pos harns]
      rfl
    · rw [if_neg harns]
      exact h2

/-- `get_service_details` succeeds when `describe_services` does. -/
theorem get_service_details_ok (o : EcsOracle)
    (h1 : exceptOk o.describe_services = true) :
    exceptOk (get_service_details o) = true := by
  unfold get_service_details
  cases hds : o.describe_services with
  | error e => rw [hds] at h1; cases h1
  | ok svcs =>
    simp only [hds, except_ok_bind]
    cases svcs <;> rfl

/-- C8 (counterexample): an external-call failure CAN terminate the
interactive session — the ECS menu's service-info refresh calls
`describe_services` outside any `try`, so its exception propagates out of
the menu step. -/
theorem C8_counterexample :
    interactive_menu_step failEcsOracle ⟨.refresh, false, false⟩ =
      .error "ThrottlingException" := rfl

/-- C8 (amended): every wrapped external call site behaves as claimed — the
whole provisioned-product menu never propagates any failure, and the ECS
menu step never propagates one provided its UNwrapped call sites
(`describe_services`, `list_tasks`, `describe_tasks`, reached through
`get_service_details`/`get_tasks` in the refresh, the tasks view and the
exec task lookup) succeed. -/
theorem C8_menu_error_handling :
    (∀ (o : ScOracle) (pp : ProvisionedProduct) (inp : ScInputs),
      exceptOk (interactive_provisioned_menu_step o pp inp) = true) ∧
    (∀ (o : EcsOracle) (inp : EcsInputs),
      exceptOk o.describe_services = true →
      exceptOk o.list_tasks = true →
      exceptOk o.describe_tasks = true →
      exceptOk (interactive_menu_step o inp) = true) := by
  constructor
  · intro o pp inp
    unfold interactive_provisioned_menu_step
    cases hd : get_provisioned_product_detail_flow o with
    | none => rfl
    | some details =>
      cases inp.action with
      | refresh => rfl
      | back => rfl
      | exit => rfl
      | terminate =>
        have ht := terminate_product_action_flow_ok o pp inp.confirm
          inp.confirm_name
        cases htp : terminate_product_action_flow o pp inp.confirm
            inp.confirm_name with
        | error e => rw [htp] at ht; cases ht
        | ok u => simp only [htp, except_ok_bind]; rfl
  · intro o inp h1 h2 h3
    unfold interactive_menu_step
    have hsd := get_service_details_ok o h1
    cases hgsd : get_service_details o with
    | error e => rw [hgsd] at hsd; cases hsd
    | ok sd =>
      simp only [hgsd, except_ok_bind]
      have hgt := get_tasks_ok o h2 h3
      cases hgtv : get_tasks o with
      | error e => rw [hgtv] at hgt; cases hgt
      | ok tasks =>
        simp only [hgtv, except_ok_bind]
        cases inp.action with
        | refresh => rfl
        | back => rfl
        | exit => rfl
        | logs =>
          have hv := view_logs_action_flow_ok o
          cases hlv : view_logs_action_flow o with
          | error e => rw [hlv] at hv; cases hv
          | ok u => simp only [hlv, except_ok_bind]; rfl
        | force =>
          have hv := force_task_action_flow_ok o inp.confirm_force
          cases hlv : force_task_action_flow o inp.confirm_force with
          | error e => rw [hlv] at hv; cases hv
          | ok u => simp only [hlv, except_ok_bind]; rfl
        | tasks =>
          unfold view_tasks_action_flow
          simp only [hgtv, except_ok_bind]
          rfl
        | exec =>
          unfold execute_command_action_flow
          by_cases hp : inp.has_plugin
          · rw [if_neg (not_not_intro hp)]
            simp only [hgtv, except_ok_bind]
            by_cases he : tasks.isEmpty
            · rw [if_pos he]
              rfl
            · rw [if_neg he]
              cases o.subprocess_call <;> rfl
          · rw [if_pos hp]
            rfl

/-- C8 (witness): the amended theorem applied to a concrete
Service Catalog oracle whose terminate call raises (the menu continues) and
to a concrete all-succeeding ECS oracle. -/
theorem C8_witness :
    exceptOk (interactive_provisioned_menu_step demoScOracle demoPP
      ⟨.terminate, true, "myapp-instance"⟩) = true ∧
    exceptOk (interactive_menu_step demoEcsOracle ⟨.logs, false, false⟩)
      = true :=
  ⟨C8_menu_error_handling.1 demoScOracle demoPP
     ⟨.terminate, true, "myapp-instance"⟩,
   C8_menu_error_handling.2 demoEcsOracle ⟨.logs, false, false⟩ rfl rfl rfl⟩

/-! ## Claim C9 — per-profile session cache -/

/-- A key found in the profile-filtered entries was already present with
the same value: the filter only removes the refreshed profile's own
entry. -/
theorem find?_of_find?_filter (l : List (String × Nat)) (p p' : String)
    (hne : p' ≠ p) (x : String × Nat)
    (h : (l.filter (fun e => !(e.1 == p))).find? (fun e => e.1 == p')
      = some x) :
    l.find? (fun e => e.1 == p') = some x := by
  induction l with
  | nil => simp at h
  | cons a t ih =>
    by_cases hap : a.1 = p
    · have hfa : (!(a.1 == p)) = false := by simp [hap]
      rw [List.filter_cons, hfa] at h
      simp only [Bool.false_eq_true, if_false] at h
      have hne' : (a.1 == p') = false := by
        simp only [beq_eq_false_iff_ne, ne_eq, hap]
        exact fun he => hne he.symm
      simp only [List.find?_cons, hne']
      exact ih h
    · have hfa : (!(a.1 == p)) = true := by simp [hap]
      rw [List.filter_cons, hfa, if_pos rfl] at h
      by_cases hap' : a.1 = p'
      · have hpos : (a.1 == p') = true := by simp [hap']
        simp only [List.find?_cons, hpos] at h ⊢
        exact h
      · have hneg : (a.1 == p') = false := by simp [hap']
        simp only [List.find?_cons, hneg] at h ⊢
        exact ih h

/-- A key found in the evicted (all-but-last) entries was present with the
same value before eviction. -/
theorem find?_of_find?_dropLast (l : List (String × Nat))
    (pred : String × Nat → Bool) (x : String × Nat)
    (h : l.dropLast.find? pred = some x) : l.find? pred = some x := by
  induction l with
  | nil => simp at h
  | cons a t ih =>
    cases t with
    | nil => simp at h
    | cons b t2 =>
      have hdl : (a :: b :: t2).dropLast = a :: (b :: t2).dropLast := rfl
      rw [hdl] at h
      cases hpa : pred a with
      | true =>
        simp only [List.find?_cons, hpa] at h ⊢
        exact h
      | false =>
        simp only [List.find?_cons, hpa] at h ⊢
        exact ih h

/-- Acquiring the same profile's session again right away reuses the handle
and constructs nothing (the entry moved to the recency front). -/
theorem get_session_repeat (st : SessionCache) (p : String) :
    (get_session p (get_session p st).2).1 = (get_session p st).1 ∧
    (get_session p (get_session p st).2).2.nextId
      = (get_session p st).2.nextId := by
  unfold get_session
  cases hf : st.entries.find? (fun e => e.1 == p) with
  | some e =>
    simp only [hf]
    have hpos : (((p, e.2) : String × Nat).1 == p) = true := by simp
    simp [List.find?_cons, hpos]
  | none =>
    simp only [hf]
    have hpos : (((p, st.nextId) : String × Nat).1 == p) = true := by simp
    simp [List.find?_cons, hpos]

/-- C9 (counterexample): with eleven distinct profiles the LRU cache (max
size 10) evicts the first profile, so re-acquiring `p0` constructs a NEW
session handle instead of reusing one cached handle. -/
theorem C9_counterexample :
    (get_session "p0" emptyCache).1 = 0 ∧
    (get_session "p0" demoCache).1 = 11 ∧
    (11 : Nat) ≠ 0 :=
  ⟨rfl, rfl, by decide⟩

/-- C9 (amended): a profile whose session is still cached is served that
exact handle with no new construction; consecutive client acquisitions for
one profile share one session handle; and a cached handle is never
overwritten while cached — an entry surviving an acquisition keeps its
value (eviction removes, never mutates). -/
theorem C9_session_cache :
    (∀ (st : SessionCache) (p : String) (v : Nat),
      lruLookup p st = some v →
      (get_session p st).1 = v ∧
      (get_session p st).2.nextId = st.nextId) ∧
    (∀ (st : SessionCache) (svc svc' p : String) (r r' : Option String),
      (get_client svc' p r' (get_client svc p r st).2).1.session
        = (get_client svc p r st).1.session ∧
      (get_client svc' p r' (get_client svc p r st).2).2.nextId
        = (get_client svc p r st).2.nextId) ∧
    (∀ (st : SessionCache) (p p' : String) (v : Nat), p' ≠ p →
      lruLookup p' (get_session p st).2 = some v →
      lruLookup p' st = some v) := by
  refine ⟨?_, ?_, ?_⟩
  · intro st p v h
    unfold lruLookup at h
    cases hf : st.entries.find? (fun e => e.1 == p) with
    | none => rw [hf] at h; cases h
    | some e =>
      rw [hf] at h
      injection h with hv
      unfold get_session
      rw [hf]
      exact ⟨hv, rfl⟩
  · intro st svc svc' p r r'
    unfold get_client
    exact get_session_repeat st p
  · intro st p p' v hne h
    unfold lruLookup at h ⊢
    unfold get_session at h
    have hhead : (p == p') = false := by
      simp only [beq_eq_false_iff_ne, ne_eq]
      exact fun he => hne he.symm
    cases hf : st.entries.find? (fun e => e.1 == p) with
    | some e =>
      simp only [hf, List.find?_cons, hhead] at h
      cases hfe : (st.entries.filter (fun x => !(x.1 == p))).find?
          (fun e => e.1 == p') with
      | none => rw [hfe] at h; cases h
      | some x =>
        rw [hfe] at h
        rw [find?_of_find?_filter st.entries p p' hne x hfe]
        exact h
    | none =>
      simp only [hf, List.find?_cons, hhead] at h
      by_cases hlen : st.entries.length ≥ 10
      · rw [if_pos hlen] at h
        cases hfe : st.entries.dropLast.find? (fun e => e.1 == p') with
        | none => rw [hfe] at h; cases h
        | some x =>
          rw [hfe] at h
          rw [find?_of_find?_dropLast st.entries _ x hfe]
          exact h
      · rw [if_neg hlen] at h
        exact h

/-- C9 (witness): a cache hit applied concretely — after caching `p0`, a
second acquisition returns the same handle 0 without constructing, and an
unrelated later acquisition preserves `p0`'s cached value. -/
theorem C9_witness :
    ((get_session "p0" (get_session "p0" emptyCache).2).1 = 0 ∧
      (get_session "p0" (get_session "p0" emptyCache).2).2.nextId
        = (get_session "p0" emptyCache).2.nextId) ∧
    lruLookup "p0" (get_session "p0" emptyCache).2 = some 0 :=
  ⟨(C9_session_cache.1 (get_session "p0" emptyCache).2 "p0" 0 rfl),
   C9_session_cache.2.2 (get_session "p0" emptyCache).2 "p1" "p0" 0
     (by decide) rfl⟩

/-! ## Claim C10 — listings sorted case-insensitively by name -/

/-- C10: each listing returns exactly the built records, reordered into a
sequence that is sorted by the lowercased resource name (Python's stable
`list.sort(key=str.lower)` / `key=lambda x: x["name"].lower()`). -/
theorem C10_listings_sorted :
    (∀ arns : List String, (list_services arns).Sorted lowerLe ∧
      (list_services arns).Perm (arns.map lastSegment)) ∧
    (∀ views : List ProductView, (list_products views).Sorted productLe ∧
      (list_products views).Perm (views.map product_of_view)) ∧
    (∀ pages : List PPView,
      (list_provisioned_products pages).Sorted ppLe ∧
      (list_provisioned_products pages).Perm (pages.map pp_of_view)) :=
  ⟨fun arns => ⟨List.sorted_insertionSort lowerLe (arns.map lastSegment),
     List.perm_insertionSort lowerLe (arns.map lastSegment)⟩,
   fun views => ⟨List.sorted_insertionSort productLe
       (views.map product_of_view),
     List.perm_insertionSort productLe (views.map product_of_view)⟩,
   fun pages => ⟨List.sorted_insertionSort ppLe (pages.map pp_of_view),
     List.perm_insertionSort ppLe (pages.map pp_of_view)⟩⟩

end AwsCliTool
